import Mathlib

/-!
# playwright-exporter: step execution engine

A shallow embedding of `src/main.go` (the step loop of `main`, lines 77-100, and
`resolveEnv`, lines 108-113) together with the properties of the specification
that are about it.

Modelling conventions.

* Go strings are Lean strings; `strings.HasPrefix` and `strings.TrimPrefix` work on the
  underlying character lists (the only prefix in play, `env://`, is ASCII).
* `map[string]string` is an association list read through `MapGet`, which returns
  the empty string for a missing key, as a Go map read does.
* The process environment is a lookup function `Env`; `Getenv` returns the empty
  string for an unset variable, as `os.Getenv` does.
* The playwright page is a record of operations over an arbitrary state type, so
  that every deterministic stub session is an instance.  `Vars.calls` is the log of the
  calls made on it.
* A Go `error` is `Option Error`, with `none` for `nil`.
* The `float64` variable `success` only ever holds the literals `1.0` and `0.0`;
  it is a rational number here.
-/

namespace PlaywrightExporter

/-! ## Data model -/

/-- A Go `map[string]string`, as the list of its entries. -/
abbrev StringMap := List (String × String)

/-- The Go map read `m[k]`: the value stored under `k`, the empty string when absent. -/
def MapGet (m : StringMap) (k : String) : String :=
  (m.lookup k).getD ""

/-- The struct `TestStep` (lines 17-20). -/
structure TestStep where
  Name : String
  Action : StringMap

/-- A non-nil Go `error`, by its message. -/
abbrev Error := String

/-- The process environment: the value of a variable, `none` when it is unset. -/
abbrev Env := String → Option String

/-- The library call `os.Getenv`: the empty string when the variable is unset. -/
def Getenv (env : Env) (key : String) : String :=
  (env key).getD ""

/-- The library call `strings.HasPrefix`. -/
def HasPrefix (s pre : String) : Bool :=
  pre.data.isPrefixOf s.data

/-- The library call `strings.TrimPrefix`: `s` without the leading `pre`, or `s` itself
when `s` does not start with `pre`. -/
def TrimPrefix (s pre : String) : String :=
  if HasPrefix s pre then String.mk (s.data.drop pre.data.length) else s

/-- The function `resolveEnv` (lines 108-113). -/
def resolveEnv (env : Env) (value : String) : String :=
  if HasPrefix value "env://" then
    Getenv env (TrimPrefix value "env://")
  else
    value

/-- The browser session used by the loop: `page.Goto`, `page.Locator`, `Locator.Fill`
and `Locator.Click`, over a session state `σ` and a locator type `Loc`.  Each operation
returns the next session state with its result. -/
structure Session (σ Loc : Type) where
  Goto : σ → String → σ × Option Error
  Locator : σ → String → σ × Loc
  Fill : σ → Loc → String → σ × Option Error
  Click : σ → Loc → σ × Option Error

/-- One call made on the session. -/
inductive Call (Loc : Type) where
  | Goto (url : String)
  | Locator (selector : String)
  | Fill (locator : Loc) (text : String)
  | Click (locator : Loc)
  deriving DecidableEq, Repr

/-- The variables live during the loop of `main`: the session state behind `page`, the
shared variable `err` (declared at line 40 and assigned by every step that performs an
operation), `success`, and the log of the calls made so far. -/
structure Vars (σ Loc : Type) where
  page : σ
  err : Option Error
  success : ℚ
  calls : List (Call Loc)

/-- The three cases of the `switch` at lines 79-90. -/
inductive ActionKind where
  | navigate
  | input
  | click
  deriving DecidableEq, Repr

/-- Case selection of the expressionless `switch` (lines 79-90): the guards are tried
from top to bottom and the first true one wins; `none` when no guard holds. -/
def switchCase (step : TestStep) : Option ActionKind :=
  if MapGet step.Action "navigate" ≠ "" then some ActionKind.navigate
  else if MapGet step.Action "input" ≠ "" then some ActionKind.input
  else if MapGet step.Action "click" ≠ "" then some ActionKind.click
  else none

/-- The `switch` statement (lines 79-90) on one step.  A step for which no guard holds
leaves every variable, `err` included, as it was. -/
def switchStmt {σ Loc : Type} (S : Session σ Loc) (env : Env) (v : Vars σ Loc)
    (step : TestStep) : Vars σ Loc :=
  match switchCase step with
  | some ActionKind.navigate =>
    let r := S.Goto v.page (MapGet step.Action "navigate")
    { v with page := r.1, err := r.2,
             calls := v.calls ++ [Call.Goto (MapGet step.Action "navigate")] }
  | some ActionKind.input =>
    let selector := MapGet step.Action "selector"
    let text := resolveEnv env (MapGet step.Action "text")
    let l := S.Locator v.page selector
    let r := S.Fill l.1 l.2 text
    { v with page := r.1, err := r.2,
             calls := v.calls ++ [Call.Locator selector, Call.Fill l.2 text] }
  | some ActionKind.click =>
    let l := S.Locator v.page (MapGet step.Action "click")
    let r := S.Click l.1 l.2
    { v with page := r.1, err := r.2,
             calls := v.calls ++ [Call.Locator (MapGet step.Action "click"), Call.Click l.2] }
  | none => v

/-- The `for` loop (lines 78-97): run the `switch` on the next step; when `err` is
non-nil afterwards set `success` to `0.0` and `break`, otherwise go on with the rest. -/
def loop {σ Loc : Type} (S : Session σ Loc) (env : Env) :
    List TestStep → Vars σ Loc → Vars σ Loc
  | [], v => v
  | step :: rest, v =>
    let v1 := switchStmt S env v step
    if v1.err ≠ none then { v1 with success := 0 }
    else loop S env rest v1

/-- The variables on entry to the loop: `err` is nil there, since every earlier
assignment to it is followed by `log.Fatalf` when it is non-nil (lines 41, 48, 54, 61,
67, 72), and `success := 1.0` (line 77). -/
def loopEntry {σ Loc : Type} (page : σ) : Vars σ Loc :=
  { page := page, err := none, success := 1, calls := [] }

/-- Lines 77-97 of `main`: the loop run from its entry state. -/
def runSteps {σ Loc : Type} (S : Session σ Loc) (env : Env) (testSteps : List TestStep)
    (page : σ) : Vars σ Loc :=
  loop S env testSteps (loopEntry page)

/-- One write to the gauge vector: the label value and the number set. -/
structure GaugeSample where
  test_name : String
  value : ℚ

/-- Lines 77-100 of `main`: run the steps, then
`testSuccess.WithLabelValues("linkedin-login").Set(success)`. -/
def main {σ Loc : Type} (S : Session σ Loc) (env : Env) (testSteps : List TestStep)
    (page : σ) : GaugeSample :=
  { test_name := "linkedin-login", value := (runSteps S env testSteps page).success }

/-! ## Reference notions used to state the properties -/

/-- The session state left by `step` when it is executed on the session state `page`. -/
def stepPage {σ Loc : Type} (S : Session σ Loc) (env : Env) (page : σ) (step : TestStep) : σ :=
  (switchStmt S env (loopEntry page) step).page

/-- The error returned by the browser operation of `step` when it is executed on the
session state `page`; `none` when the operation succeeds or the step performs none. -/
def stepResult {σ Loc : Type} (S : Session σ Loc) (env : Env) (page : σ) (step : TestStep) :
    Option Error :=
  (switchStmt S env (loopEntry page) step).err

/-- The session calls of `step` when it is executed on the session state `page`. -/
def stepCalls {σ Loc : Type} (S : Session σ Loc) (env : Env) (page : σ) (step : TestStep) :
    List (Call Loc) :=
  (switchStmt S env (loopEntry page) step).calls

/-- The session state after the steps of `steps`, executed in order from `page`. -/
def pageAfter {σ Loc : Type} (S : Session σ Loc) (env : Env) : List TestStep → σ → σ
  | [], page => page
  | step :: rest, page => pageAfter S env rest (stepPage S env page step)

/-- The calls of the steps of `steps` in order, each on the session state left by the
steps before it. -/
def planCalls {σ Loc : Type} (S : Session σ Loc) (env : Env) :
    List TestStep → σ → List (Call Loc)
  | [], _ => []
  | step :: rest, page =>
    stepCalls S env page step ++ planCalls S env rest (stepPage S env page step)

/-- Whether every step of `steps`, executed on the session state left by the steps before
it, returns no error. -/
def allSucceed {σ Loc : Type} (S : Session σ Loc) (env : Env) : List TestStep → σ → Bool
  | [], _ => true
  | step :: rest, page =>
    (stepResult S env page step).isNone && allSucceed S env rest (stepPage S env page step)

/-- The states in which the iterations of the loop start, one per iteration executed. -/
def iterationStates {σ Loc : Type} (S : Session σ Loc) (env : Env) :
    List TestStep → Vars σ Loc → List (Vars σ Loc)
  | [], _ => []
  | step :: rest, v =>
    v :: (if (switchStmt S env v step).err ≠ none then []
          else iterationStates S env rest (switchStmt S env v step))

/-- The resolver as the specification words it (section 4.2): a raw value that begins
with the literal `env://` names an environment variable by its remainder and resolves to
that variable's value, the empty string when it is unset; any other raw value is a
literal and resolves to itself. -/
def resolveReference (env : Env) (raw : String) : String :=
  match raw.data with
  | 'e' :: 'n' :: 'v' :: ':' :: '/' :: '/' :: name =>
    match env (String.mk name) with
    | some val => val
    | none => ""
  | _ => raw

/-- A stub session with no state whose locators are the selectors: `Goto` and `Fill`
succeed, and `Click` fails on the selectors listed in `missing`. -/
def stubSession (missing : List String) : Session Unit String where
  Goto := fun _ _ => ((), none)
  Locator := fun _ sel => ((), sel)
  Fill := fun _ _ _ => ((), none)
  Click := fun _ l => ((), if l ∈ missing then some "element not found" else none)

/-- An environment given by a list of bindings. -/
def envOf (bindings : List (String × String)) : Env :=
  fun k => bindings.lookup k

/-! ## Auxiliary facts -/

theorem hasPrefix_iff (s pre : String) :
    HasPrefix s pre = true ↔ ∃ X : String, s = pre ++ X := by
  unfold HasPrefix
  rw [List.isPrefixOf_iff_prefix]
  constructor
  · rintro ⟨t, ht⟩
    exact ⟨String.mk t, String.ext (by simp [ht])⟩
  · rintro ⟨X, rfl⟩
    exact ⟨X.data, by simp⟩

theorem hasPrefix_append (pre X : String) : HasPrefix (pre ++ X) pre = true :=
  (hasPrefix_iff _ _).2 ⟨X, rfl⟩

theorem hasPrefix_eq_false (s pre : String) (h : ∀ X : String, s ≠ pre ++ X) :
    HasPrefix s pre = false := by
  cases hp : HasPrefix s pre with
  | false => rfl
  | true =>
    obtain ⟨X, hX⟩ := (hasPrefix_iff s pre).1 hp
    exact absurd hX (h X)

theorem trimPrefix_append (pre X : String) : TrimPrefix (pre ++ X) pre = X := by
  unfold TrimPrefix
  rw [if_pos (hasPrefix_append pre X)]
  apply String.ext
  simp

theorem resolveEnv_prefixed (env : Env) (X : String) :
    resolveEnv env ("env://" ++ X) = Getenv env X := by
  unfold resolveEnv
  rw [if_pos (hasPrefix_append "env://" X), trimPrefix_append]

theorem resolveEnv_literal (env : Env) (s : String) (h : HasPrefix s "env://" = false) :
    resolveEnv env s = s := by
  unfold resolveEnv
  simp [h]

theorem mapGet_perm {a b : StringMap} (h : a.Perm b) (nd : (b.map Prod.fst).Nodup)
    (k : String) : MapGet a k = MapGet b k := by
  have key : a.lookup k = b.lookup k := by
    induction h with
    | nil => rfl
    | cons x _ ih =>
      rw [List.map_cons, List.nodup_cons] at nd
      obtain ⟨x1, x2⟩ := x
      by_cases hk : k = x1
      · subst hk
        simp [List.lookup]
      · have hb : (k == x1) = false := by simpa using hk
        simp only [List.lookup, hb]
        exact ih nd.2
    | swap x y l =>
      simp only [List.map_cons, List.nodup_cons, List.mem_cons, not_or] at nd
      obtain ⟨x1, x2⟩ := x
      obtain ⟨y1, y2⟩ := y
      have hne : x1 ≠ y1 := nd.1.1
      by_cases hx : k = x1
      · subst hx
        have hy : (k == y1) = false := by simpa using hne
        simp [List.lookup, hy]
      · have hx' : (k == x1) = false := by simpa using hx
        by_cases hy : k = y1
        · subst hy
          simp [List.lookup, hx']
        · have hy' : (k == y1) = false := by simpa using hy
          simp [List.lookup, hx', hy']
    | trans h1 h2 ih1 ih2 =>
      have nd2 : (List.map Prod.fst _).Nodup := (h2.map Prod.fst).nodup_iff.2 nd
      exact (ih1 nd2).trans (ih2 nd)
  unfold MapGet
  rw [key]

theorem mapGet_absent (m : StringMap) (k : String) (h : k ∉ m.map Prod.fst) :
    MapGet m k = "" := by
  unfold MapGet
  induction m with
  | nil => rfl
  | cons x m ih =>
    obtain ⟨x1, x2⟩ := x
    simp only [List.map_cons, List.mem_cons, not_or] at h
    have hb : (k == x1) = false := by simpa using h.1
    simp only [List.lookup, hb]
    exact ih h.2

theorem switchCase_congr (a b : TestStep)
    (h : ∀ k, MapGet a.Action k = MapGet b.Action k) : switchCase a = switchCase b := by
  unfold switchCase
  simp only [h]

theorem switchStmt_congr {σ Loc : Type} (S : Session σ Loc) (env : Env) (v : Vars σ Loc)
    (a b : TestStep) (h : ∀ k, MapGet a.Action k = MapGet b.Action k) :
    switchStmt S env v a = switchStmt S env v b := by
  unfold switchStmt
  rw [switchCase_congr a b h]
  simp only [h]

theorem switchStmt_noop {σ Loc : Type} (S : Session σ Loc) (env : Env) (v : Vars σ Loc)
    (step : TestStep) (h : switchCase step = none) : switchStmt S env v step = v := by
  unfold switchStmt
  rw [h]

theorem switchStmt_eq {σ Loc : Type} (S : Session σ Loc) (env : Env) (v : Vars σ Loc)
    (step : TestStep) (hv : v.err = none) :
    switchStmt S env v step =
      { page := stepPage S env v.page step, err := stepResult S env v.page step,
        success := v.success, calls := v.calls ++ stepCalls S env v.page step } := by
  obtain ⟨pg, er, su, cs⟩ := v
  simp only at hv
  subst hv
  unfold stepPage stepResult stepCalls switchStmt loopEntry
  cases switchCase step with
  | none => simp
  | some kind => cases kind <;> simp

theorem loop_cons_ok {σ Loc : Type} (S : Session σ Loc) (env : Env) (step : TestStep)
    (rest : List TestStep) (v : Vars σ Loc) (h : (switchStmt S env v step).err = none) :
    loop S env (step :: rest) v = loop S env rest (switchStmt S env v step) := by
  simp [loop, h]

theorem loop_cons_fail {σ Loc : Type} (S : Session σ Loc) (env : Env) (step : TestStep)
    (rest : List TestStep) (v : Vars σ Loc) (h : (switchStmt S env v step).err ≠ none) :
    loop S env (step :: rest) v = { switchStmt S env v step with success := 0 } := by
  simp [loop, h]

theorem loop_allSucceed {σ Loc : Type} (S : Session σ Loc) (env : Env) (plan : List TestStep) :
    ∀ v : Vars σ Loc, v.err = none → allSucceed S env plan v.page = true →
      loop S env plan v =
        { page := pageAfter S env plan v.page, err := none, success := v.success,
          calls := v.calls ++ planCalls S env plan v.page } := by
  induction plan with
  | nil =>
    intro v hv _
    obtain ⟨pg, er, su, cs⟩ := v
    simp only at hv
    subst hv
    simp [loop, pageAfter, planCalls]
  | cons step rest ih =>
    intro v hv hall
    simp only [allSucceed, Bool.and_eq_true, Option.isNone_iff_eq_none] at hall
    have hsw := switchStmt_eq S env v step hv
    have herr : (switchStmt S env v step).err = none := by rw [hsw]; exact hall.1
    rw [loop_cons_ok S env step rest v herr, ih _ herr (by rw [hsw]; exact hall.2), hsw]
    simp [pageAfter, planCalls]

theorem planCalls_snoc {σ Loc : Type} (S : Session σ Loc) (env : Env) (pre : List TestStep)
    (s : TestStep) : ∀ page : σ,
      planCalls S env (pre ++ [s]) page =
        planCalls S env pre page ++ stepCalls S env (pageAfter S env pre page) s := by
  induction pre with
  | nil => intro page; simp [planCalls, pageAfter]
  | cons t pre ih => intro page; simp [planCalls, pageAfter, ih]

theorem pageAfter_snoc {σ Loc : Type} (S : Session σ Loc) (env : Env) (pre : List TestStep)
    (s : TestStep) : ∀ page : σ,
      pageAfter S env (pre ++ [s]) page = stepPage S env (pageAfter S env pre page) s := by
  induction pre with
  | nil => intro page; simp [pageAfter]
  | cons t pre ih => intro page; simp [pageAfter, ih]

theorem loop_firstFailure {σ Loc : Type} (S : Session σ Loc) (env : Env)
    (pre : List TestStep) (s : TestStep) (post : List TestStep) :
    ∀ v : Vars σ Loc, v.err = none → allSucceed S env pre v.page = true →
      stepResult S env (pageAfter S env pre v.page) s ≠ none →
      loop S env (pre ++ s :: post) v =
        { page := pageAfter S env (pre ++ [s]) v.page,
          err := stepResult S env (pageAfter S env pre v.page) s, success := 0,
          calls := v.calls ++ planCalls S env (pre ++ [s]) v.page } := by
  induction pre with
  | nil =>
    intro v hv _ hs
    simp only [pageAfter] at hs
    have hsw := switchStmt_eq S env v s hv
    have herr : (switchStmt S env v s).err ≠ none := by rw [hsw]; exact hs
    rw [List.nil_append, loop_cons_fail S env s post v herr, hsw]
    simp [pageAfter, planCalls]
  | cons t pre ih =>
    intro v hv hall hs
    simp only [allSucceed, Bool.and_eq_true, Option.isNone_iff_eq_none] at hall
    have hsw := switchStmt_eq S env v t hv
    have herr : (switchStmt S env v t).err = none := by rw [hsw]; exact hall.1
    simp only [pageAfter] at hs
    rw [List.cons_append, loop_cons_ok S env t _ v herr,
      ih _ herr (by rw [hsw]; exact hall.2) (by rw [hsw]; exact hs), hsw]
    simp [pageAfter, planCalls]

theorem exists_firstFailure {σ Loc : Type} (S : Session σ Loc) (env : Env)
    (plan : List TestStep) : ∀ page : σ, allSucceed S env plan page = false →
      ∃ pre s post, plan = pre ++ s :: post ∧ allSucceed S env pre page = true ∧
        stepResult S env (pageAfter S env pre page) s ≠ none := by
  induction plan with
  | nil => intro page h; simp [allSucceed] at h
  | cons t rest ih =>
    intro page h
    by_cases ht : stepResult S env page t = none
    · have hrest : allSucceed S env rest (stepPage S env page t) = false := by
        simpa [allSucceed, ht] using h
      obtain ⟨pre, s, post, hplan, hpre, hs⟩ := ih _ hrest
      refine ⟨t :: pre, s, post, by rw [hplan]; rfl, ?_, ?_⟩
      · simp [allSucceed, ht, hpre]
      · simpa [pageAfter] using hs
    · exact ⟨[], t, rest, rfl, rfl, by simpa [pageAfter] using ht⟩

theorem loop_skip_noop {σ Loc : Type} (S : Session σ Loc) (env : Env) (step : TestStep)
    (h : switchCase step = none) (pre post : List TestStep) :
    ∀ v : Vars σ Loc, v.err = none →
      loop S env (pre ++ step :: post) v = loop S env (pre ++ post) v := by
  induction pre with
  | nil =>
    intro v hv
    have herr : (switchStmt S env v step).err = none := by
      rw [switchStmt_noop S env v step h]; exact hv
    rw [List.nil_append, List.nil_append, loop_cons_ok S env step post v herr,
      switchStmt_noop S env v step h]
  | cons t pre ih =>
    intro v _
    by_cases herr : (switchStmt S env v t).err = none
    · rw [List.cons_append, List.cons_append, loop_cons_ok S env t _ v herr,
        loop_cons_ok S env t _ v herr]
      exact ih _ herr
    · rw [List.cons_append, List.cons_append, loop_cons_fail S env t _ v herr,
        loop_cons_fail S env t _ v herr]

theorem iterationStates_err {σ Loc : Type} (S : Session σ Loc) (env : Env)
    (plan : List TestStep) : ∀ v : Vars σ Loc, v.err = none →
      ∀ w ∈ iterationStates S env plan v, w.err = none := by
  induction plan with
  | nil => intro v _ w hw; simp [iterationStates] at hw
  | cons t rest ih =>
    intro v hv w hw
    simp only [iterationStates, List.mem_cons] at hw
    rcases hw with rfl | hw
    · exact hv
    · by_cases herr : (switchStmt S env v t).err = none
      · rw [if_neg (by simpa using herr)] at hw
        exact ih _ herr w hw
      · rw [if_pos herr] at hw
        simp at hw

/-! ## The value resolver -/

/-- C4: `resolveEnv` equals its reference definition for every environment and every raw
string.  A raw string that does not start with `env://` is returned unchanged; a raw
string `env://X`, for every `X` (the empty name included), gives the value of the
environment variable `X`, and the empty string when `X` is unset. -/
theorem resolveEnv_eq_reference (env : Env) (raw : String) :
    resolveEnv env raw = resolveReference env raw ∧
    ((∀ X : String, raw ≠ "env://" ++ X) → resolveEnv env raw = raw) ∧
    (∀ X val, raw = "env://" ++ X → env X = some val → resolveEnv env raw = val) ∧
    (∀ X, raw = "env://" ++ X → env X = none → resolveEnv env raw = "") := by
  refine ⟨?_, ?_, ?_, ?_⟩
  · unfold resolveReference
    split
    · rename_i name hname
      have hraw : raw = "env://" ++ String.mk name := String.ext (by rw [hname]; rfl)
      rw [hraw, resolveEnv_prefixed]
      unfold Getenv
      cases env (String.mk name) <;> rfl
    · rename_i hno
      apply resolveEnv_literal
      apply hasPrefix_eq_false
      intro X hX
      exact hno X.data (by rw [hX]; rfl)
  · intro h
    exact resolveEnv_literal env raw (hasPrefix_eq_false raw "env://" h)
  · intro X val hraw hval
    rw [hraw, resolveEnv_prefixed]
    simp [Getenv, hval]
  · intro X hraw hval
    rw [hraw, resolveEnv_prefixed]
    simp [Getenv, hval]

theorem resolveEnv_eq_reference_witness :
    resolveEnv (envOf [("GREETING", "hi")]) "plain" = "plain" ∧
    resolveEnv (envOf [("GREETING", "hi")]) "env://GREETING" = "hi" ∧
    resolveEnv (envOf [("GREETING", "hi")]) "env://" = "" :=
  ⟨(resolveEnv_eq_reference (envOf [("GREETING", "hi")]) "plain").2.1
      (fun X h => by
        have hd := congrArg String.data h
        have h0 : ("plain" : String).data.head? = (("env://" : String) ++ X).data.head? := by
          rw [← hd]
        simp at h0),
   (resolveEnv_eq_reference (envOf [("GREETING", "hi")]) "env://GREETING").2.2.1
      "GREETING" "hi" (by decide) (by decide),
   (resolveEnv_eq_reference (envOf [("GREETING", "hi")]) "env://").2.2.2
      "" (by decide) (by decide)⟩

/-- C10: `resolveEnv` strips exactly one leading `env://` and does not resolve again.
For `env://X` the name looked up is `X` verbatim and the stored value is returned
verbatim, whatever either begins with.  Resolving twice is the same as resolving once for
every string that does not start with `env://`, and differs for some environment and
some string. -/
theorem resolveEnv_strips_once :
    (∀ (env : Env) (X val : String), env X = some val →
      resolveEnv env ("env://" ++ X) = val) ∧
    (∀ (env : Env) (Y val : String), env ("env://" ++ Y) = some val →
      resolveEnv env ("env://" ++ ("env://" ++ Y)) = val) ∧
    (∀ (env : Env) (s : String), (∀ X : String, s ≠ "env://" ++ X) →
      resolveEnv env (resolveEnv env s) = resolveEnv env s) ∧
    (∃ (env : Env) (s : String), resolveEnv env (resolveEnv env s) ≠ resolveEnv env s) := by
  refine ⟨?_, ?_, ?_, ?_⟩
  · intro env X val h
    rw [resolveEnv_prefixed]
    simp [Getenv, h]
  · intro env Y val h
    rw [resolveEnv_prefixed]
    simp [Getenv, h]
  · intro env s h
    have e := resolveEnv_literal env s (hasPrefix_eq_false s "env://" h)
    rw [e]
    exact e
  · exact ⟨envOf [("A", "env://B"), ("B", "b")], "env://A", by decide⟩

theorem resolveEnv_strips_once_witness :
    resolveEnv (envOf [("A", "env://B"), ("B", "b")]) ("env://" ++ "A") = "env://B" ∧
    resolveEnv (envOf [("env://B", "outer"), ("B", "b")]) ("env://" ++ ("env://" ++ "B"))
      = "outer" :=
  ⟨resolveEnv_strips_once.1 (envOf [("A", "env://B"), ("B", "b")]) "A" "env://B"
      (by decide),
   resolveEnv_strips_once.2.1 (envOf [("env://B", "outer"), ("B", "b")]) "B" "outer"
      (by decide)⟩

/-! ## The dispatcher -/

/-- C3: the case selected for a step is navigate when `action["navigate"]` is non-empty,
otherwise input when `action["input"]` is non-empty, otherwise click when
`action["click"]` is non-empty, otherwise none.  An absent key reads as the empty value.
The selection, and with it everything the step does, depends only on the key-to-value
mapping: it is the same for any reordering of the entries of a map with distinct keys.
When exactly one of the three keywords has a non-empty value, that action is selected.
The selected case is the operation the `switch` runs: with a non-empty `navigate` it is
the `Goto`, whatever `input` and `click` hold; otherwise with a non-empty `input` it is
the `Locator` and `Fill`, whatever `click` holds; otherwise with a non-empty `click` it
is the `Locator` and `Click`; otherwise nothing is run and no variable changes. -/
theorem dispatch_selection (step : TestStep) :
    (switchCase step = some ActionKind.navigate ↔ MapGet step.Action "navigate" ≠ "") ∧
    (switchCase step = some ActionKind.input ↔
      MapGet step.Action "navigate" = "" ∧ MapGet step.Action "input" ≠ "") ∧
    (switchCase step = some ActionKind.click ↔
      MapGet step.Action "navigate" = "" ∧ MapGet step.Action "input" = "" ∧
        MapGet step.Action "click" ≠ "") ∧
    (switchCase step = none ↔
      MapGet step.Action "navigate" = "" ∧ MapGet step.Action "input" = "" ∧
        MapGet step.Action "click" = "") ∧
    (∀ k, k ∉ step.Action.map Prod.fst → MapGet step.Action k = "") ∧
    (∀ other : TestStep, (∀ k, MapGet other.Action k = MapGet step.Action k) →
      switchCase other = switchCase step) ∧
    (∀ other : TestStep, other.Action.Perm step.Action →
      (step.Action.map Prod.fst).Nodup →
      switchCase other = switchCase step ∧
      ∀ {σ Loc : Type} (S : Session σ Loc) (env : Env) (v : Vars σ Loc),
        switchStmt S env v other = switchStmt S env v step) ∧
    (MapGet step.Action "navigate" ≠ "" → MapGet step.Action "input" = "" →
      MapGet step.Action "click" = "" → switchCase step = some ActionKind.navigate) ∧
    (MapGet step.Action "navigate" = "" → MapGet step.Action "input" ≠ "" →
      MapGet step.Action "click" = "" → switchCase step = some ActionKind.input) ∧
    (MapGet step.Action "navigate" = "" → MapGet step.Action "input" = "" →
      MapGet step.Action "click" ≠ "" → switchCase step = some ActionKind.click) ∧
    (∀ {σ Loc : Type} (S : Session σ Loc) (env : Env) (v : Vars σ Loc),
      MapGet step.Action "navigate" ≠ "" →
      switchStmt S env v step =
        { page := (S.Goto v.page (MapGet step.Action "navigate")).1,
          err := (S.Goto v.page (MapGet step.Action "navigate")).2,
          success := v.success,
          calls := v.calls ++ [Call.Goto (MapGet step.Action "navigate")] }) ∧
    (∀ {σ Loc : Type} (S : Session σ Loc) (env : Env) (v : Vars σ Loc),
      MapGet step.Action "navigate" = "" → MapGet step.Action "input" ≠ "" →
      switchStmt S env v step =
        { page := (S.Fill (S.Locator v.page (MapGet step.Action "selector")).1
              (S.Locator v.page (MapGet step.Action "selector")).2
              (resolveEnv env (MapGet step.Action "text"))).1,
          err := (S.Fill (S.Locator v.page (MapGet step.Action "selector")).1
              (S.Locator v.page (MapGet step.Action "selector")).2
              (resolveEnv env (MapGet step.Action "text"))).2,
          success := v.success,
          calls := v.calls ++ [Call.Locator (MapGet step.Action "selector"),
            Call.Fill (S.Locator v.page (MapGet step.Action "selector")).2
              (resolveEnv env (MapGet step.Action "text"))] }) ∧
    (∀ {σ Loc : Type} (S : Session σ Loc) (env : Env) (v : Vars σ Loc),
      MapGet step.Action "navigate" = "" → MapGet step.Action "input" = "" →
      MapGet step.Action "click" ≠ "" →
      switchStmt S env v step =
        { page := (S.Click (S.Locator v.page (MapGet step.Action "click")).1
              (S.Locator v.page (MapGet step.Action "click")).2).1,
          err := (S.Click (S.Locator v.page (MapGet step.Action "click")).1
              (S.Locator v.page (MapGet step.Action "click")).2).2,
          success := v.success,
          calls := v.calls ++ [Call.Locator (MapGet step.Action "click"),
            Call.Click (S.Locator v.page (MapGet step.Action "click")).2] }) ∧
    (∀ {σ Loc : Type} (S : Session σ Loc) (env : Env) (v : Vars σ Loc),
      MapGet step.Action "navigate" = "" → MapGet step.Action "input" = "" →
      MapGet step.Action "click" = "" → switchStmt S env v step = v) := by
  refine ⟨?_, ?_, ?_, ?_, ?_, ?_, ?_, ?_, ?_, ?_, ?_, ?_, ?_, ?_⟩
  · unfold switchCase
    by_cases hn : MapGet step.Action "navigate" = "" <;>
    by_cases hi : MapGet step.Action "input" = "" <;>
    by_cases hc : MapGet step.Action "click" = "" <;> simp [hn, hi, hc]
  · unfold switchCase
    by_cases hn : MapGet step.Action "navigate" = "" <;>
    by_cases hi : MapGet step.Action "input" = "" <;>
    by_cases hc : MapGet step.Action "click" = "" <;> simp [hn, hi, hc]
  · unfold switchCase
    by_cases hn : MapGet step.Action "navigate" = "" <;>
    by_cases hi : MapGet step.Action "input" = "" <;>
    by_cases hc : MapGet step.Action "click" = "" <;> simp [hn, hi, hc]
  · unfold switchCase
    by_cases hn : MapGet step.Action "navigate" = "" <;>
    by_cases hi : MapGet step.Action "input" = "" <;>
    by_cases hc : MapGet step.Action "click" = "" <;> simp [hn, hi, hc]
  · exact fun k hk => mapGet_absent step.Action k hk
  · exact fun other h => switchCase_congr other step h
  · intro other hperm hnd
    exact ⟨switchCase_congr other step (mapGet_perm hperm hnd),
      fun S env v => switchStmt_congr S env v other step (mapGet_perm hperm hnd)⟩
  · intro hn _ _
    simp [switchCase, hn]
  · intro hn hi _
    simp [switchCase, hn, hi]
  · intro hn hi hc
    simp [switchCase, hn, hi, hc]
  · intro σ Loc S env v hn
    simp [switchStmt, switchCase, hn]
  · intro σ Loc S env v hn hi
    simp [switchStmt, switchCase, hn, hi]
  · intro σ Loc S env v hn hi hc
    simp [switchStmt, switchCase, hn, hi, hc]
  · intro σ Loc S env v hn hi hc
    simp [switchStmt, switchCase, hn, hi, hc]

theorem dispatch_selection_witness :
    switchCase ⟨"type", [("text", "t"), ("selector", "#box"), ("input", "x")]⟩
      = switchCase ⟨"type", [("input", "x"), ("selector", "#box"), ("text", "t")]⟩ ∧
    switchCase ⟨"type", [("input", "x"), ("selector", "#box"), ("text", "t")]⟩
      = some ActionKind.input ∧
    switchCase ⟨"both", [("click", "#a"), ("navigate", "https://example.com")]⟩
      = some ActionKind.navigate ∧
    switchCase ⟨"blank", [("navigate", ""), ("click", "#a")]⟩ = some ActionKind.click ∧
    switchStmt (stubSession ["#a"]) (envOf []) (loopEntry ())
      ⟨"both", [("click", "#a"), ("navigate", "https://example.com")]⟩
      = { page := (), err := none, success := 1,
          calls := [Call.Goto "https://example.com"] } ∧
    switchStmt (stubSession ["#a"]) (envOf []) (loopEntry ())
      ⟨"type", [("click", "#a"), ("text", "t"), ("selector", "#box"), ("input", "x")]⟩
      = { page := (), err := none, success := 1,
          calls := [Call.Locator "#box", Call.Fill "#box" "t"] } ∧
    switchStmt (stubSession ["#a"]) (envOf []) (loopEntry ())
      ⟨"blank", [("navigate", ""), ("click", "#a")]⟩
      = { page := (), err := some "element not found", success := 1,
          calls := [Call.Locator "#a", Call.Click "#a"] } ∧
    switchStmt (stubSession ["#a"]) (envOf []) (loopEntry ())
      ⟨"typo", [("clik", "#a"), ("input", "")]⟩ = loopEntry () :=
  ⟨((dispatch_selection ⟨"type", [("input", "x"), ("selector", "#box"), ("text", "t")]⟩).2.2.2.2.2.2.1
      ⟨"type", [("text", "t"), ("selector", "#box"), ("input", "x")]⟩
      (by decide) (by decide)).1,
   (dispatch_selection ⟨"type", [("input", "x"), ("selector", "#box"), ("text", "t")]⟩).2.2.2.2.2.2.2.2.1
      (by decide) (by decide) (by decide),
   (dispatch_selection ⟨"both", [("click", "#a"), ("navigate", "https://example.com")]⟩).1.2
      (by decide),
   (dispatch_selection ⟨"blank", [("navigate", ""), ("click", "#a")]⟩).2.2.1.2
      ⟨by decide, by decide, by decide⟩,
   (dispatch_selection
      ⟨"both", [("click", "#a"), ("navigate", "https://example.com")]⟩).2.2.2.2.2.2.2.2.2.2.1
      (stubSession ["#a"]) (envOf []) (loopEntry ()) (by decide),
   (dispatch_selection
      ⟨"type", [("click", "#a"), ("text", "t"), ("selector", "#box"),
        ("input", "x")]⟩).2.2.2.2.2.2.2.2.2.2.2.1
      (stubSession ["#a"]) (envOf []) (loopEntry ()) (by decide) (by decide),
   (dispatch_selection
      ⟨"blank", [("navigate", ""), ("click", "#a")]⟩).2.2.2.2.2.2.2.2.2.2.2.2.1
      (stubSession ["#a"]) (envOf []) (loopEntry ()) (by decide) (by decide) (by decide),
   (dispatch_selection
      ⟨"typo", [("clik", "#a"), ("input", "")]⟩).2.2.2.2.2.2.2.2.2.2.2.2.2
      (stubSession ["#a"]) (envOf []) (loopEntry ()) (by decide) (by decide) (by decide)⟩

/-- C7: a step selected as a navigate step makes exactly one session call, `Goto` with
`action["navigate"]` unchanged, and takes its error and the next session state from that
call.  The value is not passed through `resolveEnv`: the step does the same whatever
the environment holds, so a URL beginning with `env://` reaches the session literally. -/
theorem navigate_target_unresolved {σ Loc : Type} (S : Session σ Loc) (env : Env)
    (v : Vars σ Loc) (step : TestStep) (h : switchCase step = some ActionKind.navigate) :
    (switchStmt S env v step).calls
      = v.calls ++ [Call.Goto (MapGet step.Action "navigate")] ∧
    (switchStmt S env v step).err = (S.Goto v.page (MapGet step.Action "navigate")).2 ∧
    (switchStmt S env v step).page = (S.Goto v.page (MapGet step.Action "navigate")).1 ∧
    (∀ env2 : Env, switchStmt S env2 v step = switchStmt S env v step) ∧
    (∀ X : String, MapGet step.Action "navigate" = "env://" ++ X →
      (switchStmt S env v step).calls = v.calls ++ [Call.Goto ("env://" ++ X)]) := by
  refine ⟨?_, ?_, ?_, ?_, ?_⟩
  · simp [switchStmt, h]
  · simp [switchStmt, h]
  · simp [switchStmt, h]
  · intro env2
    simp [switchStmt, h]
  · intro X hX
    simp [switchStmt, h, hX]

theorem navigate_target_unresolved_witness :
    switchCase ⟨"go", [("navigate", "env://URL")]⟩ = some ActionKind.navigate ∧
    (switchStmt (stubSession []) (envOf [("URL", "https://example.com")]) (loopEntry ())
      ⟨"go", [("navigate", "env://URL")]⟩).calls = [Call.Goto "env://URL"] :=
  ⟨by decide,
   (navigate_target_unresolved (stubSession []) (envOf [("URL", "https://example.com")])
      (loopEntry ()) ⟨"go", [("navigate", "env://URL")]⟩ (by decide)).1⟩

/-- C5: a step selected as an input step makes exactly two session calls: `Locator` with
`action["selector"]` taken verbatim, then `Fill` on the locator it returned with
`resolveEnv(action["text"])`; its error and next session state are those of the `Fill`.
The value of `action["input"]` is only the non-empty flag: two input steps with the same
selector and text do the same. -/
theorem input_step_arguments {σ Loc : Type} (S : Session σ Loc) (env : Env)
    (v : Vars σ Loc) (step : TestStep) (h : switchCase step = some ActionKind.input) :
    (switchStmt S env v step).calls
      = v.calls ++ [Call.Locator (MapGet step.Action "selector"),
          Call.Fill (S.Locator v.page (MapGet step.Action "selector")).2
            (resolveEnv env (MapGet step.Action "text"))] ∧
    (switchStmt S env v step).err
      = (S.Fill (S.Locator v.page (MapGet step.Action "selector")).1
          (S.Locator v.page (MapGet step.Action "selector")).2
          (resolveEnv env (MapGet step.Action "text"))).2 ∧
    (switchStmt S env v step).page
      = (S.Fill (S.Locator v.page (MapGet step.Action "selector")).1
          (S.Locator v.page (MapGet step.Action "selector")).2
          (resolveEnv env (MapGet step.Action "text"))).1 ∧
    (∀ other : TestStep, switchCase other = some ActionKind.input →
      MapGet other.Action "selector" = MapGet step.Action "selector" →
      MapGet other.Action "text" = MapGet step.Action "text" →
      switchStmt S env v other = switchStmt S env v step) := by
  refine ⟨?_, ?_, ?_, ?_⟩
  · simp [switchStmt, h]
  · simp [switchStmt, h]
  · simp [switchStmt, h]
  · intro other ho hsel htext
    simp [switchStmt, h, ho, hsel, htext]

theorem input_step_arguments_witness :
    switchCase ⟨"type", [("input", "x"), ("selector", "#box"), ("text", "env://GREETING")]⟩
      = some ActionKind.input ∧
    (switchStmt (stubSession []) (envOf [("GREETING", "hi")])
      (switchStmt (stubSession []) (envOf [("GREETING", "hi")]) (loopEntry ())
        ⟨"go", [("navigate", "https://example.com")]⟩)
      ⟨"type", [("input", "x"), ("selector", "#box"), ("text", "env://GREETING")]⟩).calls
      = [Call.Goto "https://example.com", Call.Locator "#box", Call.Fill "#box" "hi"] ∧
    (main (stubSession []) (envOf [("GREETING", "hi")])
      [⟨"go", [("navigate", "https://example.com")]⟩,
       ⟨"type", [("input", "x"), ("selector", "#box"), ("text", "env://GREETING")]⟩] ()).value
      = 1 :=
  ⟨by decide,
   (input_step_arguments (stubSession []) (envOf [("GREETING", "hi")])
      (switchStmt (stubSession []) (envOf [("GREETING", "hi")]) (loopEntry ())
        ⟨"go", [("navigate", "https://example.com")]⟩)
      ⟨"type", [("input", "x"), ("selector", "#box"), ("text", "env://GREETING")]⟩
      (by decide)).1,
   by decide⟩

/-- C8: a step selected as a click step makes exactly two session calls: `Locator` with
`action["click"]` taken verbatim, then `Click` on the locator it returned; its error and
next session state are those of the `Click`, so the step fails exactly when that click
returns an error: a plan of that single step reports `0` then and `1` otherwise. -/
theorem click_step {σ Loc : Type} (S : Session σ Loc) (env : Env)
    (v : Vars σ Loc) (step : TestStep) (h : switchCase step = some ActionKind.click) :
    (switchStmt S env v step).calls
      = v.calls ++ [Call.Locator (MapGet step.Action "click"),
          Call.Click (S.Locator v.page (MapGet step.Action "click")).2] ∧
    (switchStmt S env v step).err
      = (S.Click (S.Locator v.page (MapGet step.Action "click")).1
          (S.Locator v.page (MapGet step.Action "click")).2).2 ∧
    (switchStmt S env v step).page
      = (S.Click (S.Locator v.page (MapGet step.Action "click")).1
          (S.Locator v.page (MapGet step.Action "click")).2).1 ∧
    (stepResult S env v.page step ≠ none ↔
      (S.Click (S.Locator v.page (MapGet step.Action "click")).1
          (S.Locator v.page (MapGet step.Action "click")).2).2 ≠ none) ∧
    ((main S env [step] v.page).value = 0 ↔
      (S.Click (S.Locator v.page (MapGet step.Action "click")).1
          (S.Locator v.page (MapGet step.Action "click")).2).2 ≠ none) ∧
    ((main S env [step] v.page).value = 1 ↔
      (S.Click (S.Locator v.page (MapGet step.Action "click")).1
          (S.Locator v.page (MapGet step.Action "click")).2).2 = none) := by
  refine ⟨?_, ?_, ?_, ?_, ?_, ?_⟩
  · simp [switchStmt, h]
  · simp [switchStmt, h]
  · simp [switchStmt, h]
  · simp [stepResult, switchStmt, h, loopEntry]
  · cases hr : (S.Click (S.Locator v.page (MapGet step.Action "click")).1
        (S.Locator v.page (MapGet step.Action "click")).2).2 <;>
      simp [main, runSteps, loop, switchStmt, h, loopEntry, hr]
  · cases hr : (S.Click (S.Locator v.page (MapGet step.Action "click")).1
        (S.Locator v.page (MapGet step.Action "click")).2).2 <;>
      simp [main, runSteps, loop, switchStmt, h, loopEntry, hr]

theorem click_step_witness :
    switchCase ⟨"click-missing", [("click", "#nope")]⟩ = some ActionKind.click ∧
    (switchStmt (stubSession ["#nope"]) (envOf []) (loopEntry ())
      ⟨"click-missing", [("click", "#nope")]⟩).calls
      = [Call.Locator "#nope", Call.Click "#nope"] ∧
    (main (stubSession ["#nope"]) (envOf []) [⟨"click-missing", [("click", "#nope")]⟩]
      ()).value = 0 :=
  ⟨by decide,
   (click_step (stubSession ["#nope"]) (envOf []) (loopEntry ())
      ⟨"click-missing", [("click", "#nope")]⟩ (by decide)).1,
   (click_step (stubSession ["#nope"]) (envOf []) (loopEntry ())
      ⟨"click-missing", [("click", "#nope")]⟩ (by decide)).2.2.2.2.1.2 (by decide)⟩

/-- C6, as the specification states it, fails on the code: with `URL`, `SEL` and `BTN`
set in the environment, a navigate URL `env://URL`, an input selector `env://SEL` and a
click locator `env://BTN` reach the session literally, not as the values of those
variables. -/
theorem env_indirection_not_everywhere :
    resolveEnv (envOf [("URL", "https://example.com"), ("SEL", "#box"), ("BTN", "#ok")])
      "env://URL" = "https://example.com" ∧
    (runSteps (stubSession [])
      (envOf [("URL", "https://example.com"), ("SEL", "#box"), ("BTN", "#ok")])
      [⟨"go", [("navigate", "env://URL")]⟩] ()).calls = [Call.Goto "env://URL"] ∧
    (runSteps (stubSession [])
      (envOf [("URL", "https://example.com"), ("SEL", "#box"), ("BTN", "#ok")])
      [⟨"go", [("navigate", "env://URL")]⟩] ()).calls ≠ [Call.Goto "https://example.com"] ∧
    resolveEnv (envOf [("URL", "https://example.com"), ("SEL", "#box"), ("BTN", "#ok")])
      "env://SEL" = "#box" ∧
    (runSteps (stubSession [])
      (envOf [("URL", "https://example.com"), ("SEL", "#box"), ("BTN", "#ok")])
      [⟨"type", [("input", "x"), ("selector", "env://SEL"), ("text", "t")]⟩] ()).calls
      = [Call.Locator "env://SEL", Call.Fill "env://SEL" "t"] ∧
    (runSteps (stubSession [])
      (envOf [("URL", "https://example.com"), ("SEL", "#box"), ("BTN", "#ok")])
      [⟨"type", [("input", "x"), ("selector", "env://SEL"), ("text", "t")]⟩] ()).calls
      ≠ [Call.Locator "#box", Call.Fill "#box" "t"] ∧
    resolveEnv (envOf [("URL", "https://example.com"), ("SEL", "#box"), ("BTN", "#ok")])
      "env://BTN" = "#ok" ∧
    (runSteps (stubSession [])
      (envOf [("URL", "https://example.com"), ("SEL", "#box"), ("BTN", "#ok")])
      [⟨"press", [("click", "env://BTN")]⟩] ()).calls
      = [Call.Locator "env://BTN", Call.Click "env://BTN"] ∧
    (runSteps (stubSession [])
      (envOf [("URL", "https://example.com"), ("SEL", "#box"), ("BTN", "#ok")])
      [⟨"press", [("click", "env://BTN")]⟩] ()).calls
      ≠ [Call.Locator "#ok", Call.Click "#ok"] := by
  decide

/-- C6, amended: of the action parameters the dispatcher consumes, only the input text is
passed through `resolveEnv`, so a text `env://NAME` reaches `Fill` as the value of the
environment variable `NAME`, the empty string when it is unset; the navigate URL, the
input selector and the click locator are handed to the session verbatim. -/
theorem env_indirection_input_text_only {σ Loc : Type} (S : Session σ Loc) (env : Env)
    (v : Vars σ Loc) (step : TestStep) :
    (switchCase step = some ActionKind.navigate →
      (switchStmt S env v step).calls
        = v.calls ++ [Call.Goto (MapGet step.Action "navigate")]) ∧
    (switchCase step = some ActionKind.input →
      (switchStmt S env v step).calls
        = v.calls ++ [Call.Locator (MapGet step.Action "selector"),
            Call.Fill (S.Locator v.page (MapGet step.Action "selector")).2
              (resolveEnv env (MapGet step.Action "text"))]) ∧
    (∀ NAME : String, switchCase step = some ActionKind.input →
      MapGet step.Action "text" = "env://" ++ NAME →
      (switchStmt S env v step).calls
        = v.calls ++ [Call.Locator (MapGet step.Action "selector"),
            Call.Fill (S.Locator v.page (MapGet step.Action "selector")).2
              ((env NAME).getD "")]) ∧
    (switchCase step = some ActionKind.click →
      (switchStmt S env v step).calls
        = v.calls ++ [Call.Locator (MapGet step.Action "click"),
            Call.Click (S.Locator v.page (MapGet step.Action "click")).2]) := by
  refine ⟨?_, ?_, ?_, ?_⟩
  · intro h
    simp [switchStmt, h]
  · intro h
    simp [switchStmt, h]
  · intro NAME h ht
    have hr : resolveEnv env ("env://" ++ NAME) = (env NAME).getD "" :=
      resolveEnv_prefixed env NAME
    simp [switchStmt, h, ht, hr]
  · intro h
    simp [switchStmt, h]

theorem env_indirection_input_text_only_witness :
    (switchStmt (stubSession []) (envOf [("SEL", "#box"), ("GREETING", "hi")])
      (loopEntry ())
      ⟨"type", [("input", "x"), ("selector", "env://SEL"), ("text", "env://GREETING")]⟩).calls
      = [Call.Locator "env://SEL", Call.Fill "env://SEL" "hi"] ∧
    (switchStmt (stubSession []) (envOf [("SEL", "#box"), ("GREETING", "hi")])
      (loopEntry ())
      ⟨"type", [("input", "x"), ("selector", "env://SEL"), ("text", "env://MISSING")]⟩).calls
      = [Call.Locator "env://SEL", Call.Fill "env://SEL" ""] :=
  ⟨(env_indirection_input_text_only (stubSession [])
      (envOf [("SEL", "#box"), ("GREETING", "hi")]) (loopEntry ())
      ⟨"type", [("input", "x"), ("selector", "env://SEL"), ("text", "env://GREETING")]⟩).2.2.1
      "GREETING" (by decide) (by decide),
   (env_indirection_input_text_only (stubSession [])
      (envOf [("SEL", "#box"), ("GREETING", "hi")]) (loopEntry ())
      ⟨"type", [("input", "x"), ("selector", "env://SEL"), ("text", "env://MISSING")]⟩).2.2.1
      "MISSING" (by decide) (by decide)⟩

/-! ## The run -/

theorem runSteps_allSucceed {σ Loc : Type} (S : Session σ Loc) (env : Env)
    (plan : List TestStep) (page : σ) (h : allSucceed S env plan page = true) :
    runSteps S env plan page =
      { page := pageAfter S env plan page, err := none, success := 1,
        calls := planCalls S env plan page } := by
  have e := loop_allSucceed S env plan (loopEntry page) rfl h
  simpa [runSteps, loopEntry] using e

theorem runSteps_firstFailure {σ Loc : Type} (S : Session σ Loc) (env : Env)
    (pre : List TestStep) (s : TestStep) (post : List TestStep) (page : σ)
    (hpre : allSucceed S env pre page = true)
    (hs : stepResult S env (pageAfter S env pre page) s ≠ none) :
    runSteps S env (pre ++ s :: post) page =
      { page := pageAfter S env (pre ++ [s]) page,
        err := stepResult S env (pageAfter S env pre page) s, success := 0,
        calls := planCalls S env (pre ++ [s]) page } := by
  have e := loop_firstFailure S env pre s post (loopEntry page) rfl hpre hs
  simpa [runSteps, loopEntry] using e

/-- C1: fail-fast in plan order.  When the steps of `pre` all succeed and `s`, executed
after them, is the first step whose browser operation returns an error, the session
calls made by the run of `pre ++ s :: post` are exactly the calls of the steps of `pre`
and of `s`, in that order, and the session is left as `s` left it: nothing of `post` is
called.  When no step fails, the calls are those of all the steps in plan order. -/
theorem fail_fast_in_plan_order {σ Loc : Type} (S : Session σ Loc) (env : Env) (page : σ) :
    (∀ (pre : List TestStep) (s : TestStep) (post : List TestStep),
      allSucceed S env pre page = true →
      stepResult S env (pageAfter S env pre page) s ≠ none →
      (runSteps S env (pre ++ s :: post) page).calls
        = planCalls S env pre page ++ stepCalls S env (pageAfter S env pre page) s ∧
      (runSteps S env (pre ++ s :: post) page).calls = planCalls S env (pre ++ [s]) page ∧
      (runSteps S env (pre ++ s :: post) page).page = pageAfter S env (pre ++ [s]) page) ∧
    (∀ plan : List TestStep, allSucceed S env plan page = true →
      (runSteps S env plan page).calls = planCalls S env plan page ∧
      (runSteps S env plan page).page = pageAfter S env plan page) := by
  constructor
  · intro pre s post hpre hs
    rw [runSteps_firstFailure S env pre s post page hpre hs]
    exact ⟨planCalls_snoc S env pre s page, rfl, rfl⟩
  · intro plan h
    rw [runSteps_allSucceed S env plan page h]
    exact ⟨rfl, rfl⟩

theorem fail_fast_in_plan_order_witness :
    (runSteps (stubSession ["#nope"]) (envOf [])
      ([⟨"go", [("navigate", "https://example.com")]⟩] ++
        ⟨"click-missing", [("click", "#nope")]⟩ ::
        [⟨"type", [("input", "x"), ("selector", "#box"), ("text", "t")]⟩,
         ⟨"again", [("click", "#nope")]⟩]) ()).calls
      = [Call.Goto "https://example.com", Call.Locator "#nope", Call.Click "#nope"] ∧
    (runSteps (stubSession ["#nope"]) (envOf [])
      [⟨"go", [("navigate", "https://example.com")]⟩,
       ⟨"type", [("input", "x"), ("selector", "#box"), ("text", "t")]⟩,
       ⟨"press", [("click", "#ok")]⟩] ()).calls
      = [Call.Goto "https://example.com", Call.Locator "#box", Call.Fill "#box" "t",
         Call.Locator "#ok", Call.Click "#ok"] :=
  ⟨((fail_fast_in_plan_order (stubSession ["#nope"]) (envOf []) ()).1
      [⟨"go", [("navigate", "https://example.com")]⟩]
      ⟨"click-missing", [("click", "#nope")]⟩
      [⟨"type", [("input", "x"), ("selector", "#box"), ("text", "t")]⟩,
       ⟨"again", [("click", "#nope")]⟩]
      (by decide) (by decide)).2.1,
   ((fail_fast_in_plan_order (stubSession ["#nope"]) (envOf []) ()).2
      [⟨"go", [("navigate", "https://example.com")]⟩,
       ⟨"type", [("input", "x"), ("selector", "#box"), ("text", "t")]⟩,
       ⟨"press", [("click", "#ok")]⟩]
      (by decide)).1⟩

/-- C2: the value written to the gauge, under the label `linkedin-login`, is `1` or `0`
and nothing else: `1` exactly when every step of the plan succeeds, `0` exactly when some
step that is reached (every step before it having succeeded) returns an error.  The
empty plan yields `1`.  The run is a total function of the plan and the session, so a
failing step still produces a reported value. -/
theorem aggregate_outcome {σ Loc : Type} (S : Session σ Loc) (env : Env)
    (plan : List TestStep) (page : σ) :
    ((main S env plan page).value = 1 ∨ (main S env plan page).value = 0) ∧
    (main S env plan page).test_name = "linkedin-login" ∧
    ((main S env plan page).value = 1 ↔ allSucceed S env plan page = true) ∧
    ((main S env plan page).value = 0 ↔
      ∃ pre s post, plan = pre ++ s :: post ∧ allSucceed S env pre page = true ∧
        stepResult S env (pageAfter S env pre page) s ≠ none) ∧
    (main S env [] page).value = 1 := by
  have hfail : (∃ pre s post, plan = pre ++ s :: post ∧ allSucceed S env pre page = true ∧
      stepResult S env (pageAfter S env pre page) s ≠ none) →
      (main S env plan page).value = 0 := by
    rintro ⟨pre, s, post, rfl, hpre, hs⟩
    simp [main, runSteps_firstFailure S env pre s post page hpre hs]
  have hok : allSucceed S env plan page = true → (main S env plan page).value = 1 := by
    intro h
    simp [main, runSteps_allSucceed S env plan page h]
  cases hall : allSucceed S env plan page with
  | true =>
    have h1 := hok hall
    refine ⟨Or.inl h1, rfl, ⟨fun _ => rfl, fun _ => h1⟩, ⟨fun h0 => ?_, hfail⟩, rfl⟩
    rw [h1] at h0
    exact absurd h0 one_ne_zero
  | false =>
    have h0 := hfail (exists_firstFailure S env plan page hall)
    refine ⟨Or.inr h0, rfl, ⟨fun h1 => ?_, fun h => by simp at h⟩,
      ⟨fun _ => exists_firstFailure S env plan page hall, fun _ => h0⟩, rfl⟩
    rw [h0] at h1
    exact absurd h1 zero_ne_one

theorem aggregate_outcome_witness :
    (main (stubSession ["#nope"]) (envOf [])
      [⟨"go", [("navigate", "https://example.com")]⟩,
       ⟨"press", [("click", "#ok")]⟩] ()).value = 1 ∧
    (main (stubSession ["#nope"]) (envOf [])
      [⟨"go", [("navigate", "https://example.com")]⟩,
       ⟨"click-missing", [("click", "#nope")]⟩,
       ⟨"press", [("click", "#ok")]⟩] ()).value = 0 :=
  ⟨(aggregate_outcome (stubSession ["#nope"]) (envOf [])
      [⟨"go", [("navigate", "https://example.com")]⟩,
       ⟨"press", [("click", "#ok")]⟩] ()).2.2.1.2 (by decide),
   (aggregate_outcome (stubSession ["#nope"]) (envOf [])
      [⟨"go", [("navigate", "https://example.com")]⟩,
       ⟨"click-missing", [("click", "#nope")]⟩,
       ⟨"press", [("click", "#ok")]⟩] ()).2.2.2.1.2
      ⟨[⟨"go", [("navigate", "https://example.com")]⟩],
       ⟨"click-missing", [("click", "#nope")]⟩,
       [⟨"press", [("click", "#ok")]⟩], rfl, by decide, by decide⟩⟩

/-- C9: a step whose action map has no non-empty value under `navigate`, `input` or
`click` is a successful no-op wherever the run reaches it.  Executing it changes no
variable and makes no session call; `err` is nil at the start of every iteration of the
loop, so the run goes on with the next step; and the run of a plan containing the step
ends in the same state, with the same calls and the same reported value, as the run of
the plan with that step removed. -/
theorem unrecognized_step_is_noop {σ Loc : Type} (S : Session σ Loc) (env : Env)
    (step : TestStep)
    (h : MapGet step.Action "navigate" = "" ∧ MapGet step.Action "input" = "" ∧
      MapGet step.Action "click" = "") :
    (∀ v : Vars σ Loc, switchStmt S env v step = v) ∧
    (∀ page : σ, stepCalls S env page step = [] ∧ stepResult S env page step = none) ∧
    (∀ (plan : List TestStep) (page : σ),
      ∀ w ∈ iterationStates S env plan (loopEntry page), w.err = none) ∧
    (∀ (post : List TestStep) (v : Vars σ Loc), v.err = none →
      loop S env (step :: post) v = loop S env post v) ∧
    (∀ (pre post : List TestStep) (page : σ),
      runSteps S env (pre ++ step :: post) page = runSteps S env (pre ++ post) page) ∧
    (∀ (pre post : List TestStep) (page : σ),
      main S env (pre ++ step :: post) page = main S env (pre ++ post) page) ∧
    (∀ page : σ, (runSteps S env [step] page).calls = [] ∧
      (main S env [step] page).value = 1) := by
  have hc : switchCase step = none := by
    simp [switchCase, h.1, h.2.1, h.2.2]
  have hrun : ∀ (pre post : List TestStep) (page : σ),
      runSteps S env (pre ++ step :: post) page = runSteps S env (pre ++ post) page :=
    fun pre post page => loop_skip_noop S env step hc pre post (loopEntry page) rfl
  refine ⟨fun v => switchStmt_noop S env v step hc, ?_, ?_, ?_, hrun, ?_, ?_⟩
  · intro page
    simp [stepCalls, stepResult, switchStmt_noop S env _ step hc, loopEntry]
  · exact fun plan page => iterationStates_err S env plan (loopEntry page) rfl
  · exact fun post v hv => loop_skip_noop S env step hc [] post v hv
  · intro pre post page
    simp [main, hrun pre post page]
  · intro page
    have e : runSteps S env [step] page = runSteps S env [] page := hrun [] [] page
    rw [main, e]
    simp [runSteps, loop, loopEntry]

theorem unrecognized_step_is_noop_witness :
    (runSteps (stubSession ["#nope"]) (envOf []) [⟨"noop", []⟩] ()).calls = [] ∧
    (main (stubSession ["#nope"]) (envOf []) [⟨"noop", []⟩] ()).value = 1 ∧
    main (stubSession ["#nope"]) (envOf [])
      ([⟨"go", [("navigate", "https://example.com")]⟩] ++ ⟨"typo", [("clik", "#ok")]⟩ ::
        [⟨"click-missing", [("click", "#nope")]⟩]) ()
      = main (stubSession ["#nope"]) (envOf [])
      ([⟨"go", [("navigate", "https://example.com")]⟩] ++
        [⟨"click-missing", [("click", "#nope")]⟩]) () :=
  ⟨((unrecognized_step_is_noop (stubSession ["#nope"]) (envOf []) ⟨"noop", []⟩
      ⟨by decide, by decide, by decide⟩).2.2.2.2.2.2 ()).1,
   ((unrecognized_step_is_noop (stubSession ["#nope"]) (envOf []) ⟨"noop", []⟩
      ⟨by decide, by decide, by decide⟩).2.2.2.2.2.2 ()).2,
   (unrecognized_step_is_noop (stubSession ["#nope"]) (envOf []) ⟨"typo", [("clik", "#ok")]⟩
      ⟨by decide, by decide, by decide⟩).2.2.2.2.2.1
      [⟨"go", [("navigate", "https://example.com")]⟩]
      [⟨"click-missing", [("click", "#nope")]⟩] ()⟩

end PlaywrightExporter
